import Mathlib

/-!
Verification of the room-control-raspi fan decision engine and MQTT router.

Shallow embedding of:
  * `updateFans` in `src/lib/RoomControl.js` (per-fan evaluation: manual
    override, minimum-run-time guard, humidity hysteresis, light-trailing
    latch, publish/actuate commit), and
  * `handleMqttMessage` in `src/room-control.js` (topic routing and the
    status-cache merge).

Conventions of the embedding:
  * JS timestamps (Date / moment) are integers (milliseconds).  The several
    `moment()` / `new Date()` calls inside one evaluation are a single `now`.
  * JS `undefined` / absent values are `Option.none`.
  * JS truthiness: a number is falsy exactly when it is `0`; a string is
    falsy exactly when it is `""`; `undefined` is falsy; objects are truthy.
  * The nested status object mutated via `_.set` is modelled as a finite map
    from full path (list of segments) to the stored payload.
-/

namespace RC

/-- Fan speed values: the cache stores `'off' | 'min' | 'max'`
(`src/lib/RoomControl.js` line 257, default `'off'`). -/
inductive Speed
  | off
  | min
  | max
deriving DecidableEq, Repr

/-- Fan control mode (`src/lib/RoomControl.js` line 256, default `'manual'`).
Any cached value other than the string `'manual'` falls into the automatic
branch; we model it with the two-valued type. -/
inductive Control
  | manual
  | auto
deriving DecidableEq, Repr

/-- The humidity contribution to the new fan speed,
`src/lib/RoomControl.js` lines 277-298:

  `let newSpeed = 'off'; if(humidity) { ...bands... }`

The `h = 0` case models JS truthiness: a humidity reading of `0` is falsy,
so the band block is skipped and the contribution stays `'off'`. -/
def humiditySpeed (humidity : Option Int) (minHumidityThreshold maxHumidityThreshold : Int)
    (speed : Speed) : Speed :=
  match humidity with
  | none => Speed.off
  | some h =>
    if h = 0 then Speed.off
    else
      let downToMinThreshold := minHumidityThreshold - 5
      let downToMaxThreshold := maxHumidityThreshold - 10
      if h > maxHumidityThreshold then Speed.max
      else if speed = Speed.max ∧ h > downToMaxThreshold then Speed.max
      else if h > minHumidityThreshold then Speed.min
      else if speed = Speed.min ∧ h > downToMinThreshold then Speed.min
      else Speed.off

/-- What the spec text of §4.4 step 3 prescribes for a present humidity
reading (used to compare the spec sentence against `humiditySpeed`, which is
translated from the source). -/
def specHumiditySpeed (h : Int) (minHumidityThreshold maxHumidityThreshold : Int)
    (speed : Speed) : Speed :=
  if h > maxHumidityThreshold then Speed.max
  else if speed = Speed.max ∧ h > maxHumidityThreshold - 10 then Speed.max
  else if h > minHumidityThreshold then Speed.min
  else if speed = Speed.min ∧ h > minHumidityThreshold - 5 then Speed.min
  else Speed.off

/-- Cached status of one trigger light as `updateFans` reads it:
`_.get(status, ['light', lightId, 'status', 'value'])` and
`_.get(status, ['light', lightId, 'status', 'since'])`
(`src/lib/RoomControl.js` lines 305-306). -/
structure LightSt where
  value : Option String
  since : Option Int
deriving DecidableEq, Repr

/-- Loop accumulator of `updateFans` lines 300-302:
`minLightOnSince`, `maxLightOffSince`, `anyLightOn`. -/
structure LightAcc where
  minOn : Option Int
  maxOff : Option Int
  anyOn : Bool
deriving DecidableEq, Repr

/-- JS `a < b` on possibly-undefined timestamps: comparison with
`undefined` is `false` (NaN semantics). -/
def optLt : Option Int → Option Int → Bool
  | some a, some b => decide (a < b)
  | _, _ => false

/-- JS `a > b` on possibly-undefined timestamps. -/
def optGt : Option Int → Option Int → Bool
  | some a, some b => decide (a > b)
  | _, _ => false

/-- One iteration of the trigger-light loop, `src/lib/RoomControl.js`
lines 304-319.  `if(!minLightOnSince || since < minLightOnSince)` is the JS
truthiness test (`none` is falsy) plus `optLt`. -/
def stepLight (acc : LightAcc) (l : LightSt) : LightAcc :=
  if l.value = some "on" then
    { minOn := if acc.minOn.isNone || optLt l.since acc.minOn then l.since else acc.minOn
      maxOff := acc.maxOff
      anyOn := true }
  else
    { minOn := acc.minOn
      maxOff := if acc.maxOff.isNone || optGt l.since acc.maxOff then l.since else acc.maxOff
      anyOn := acc.anyOn }

/-- The whole trigger-light loop, starting from
`minLightOnSince = null; maxLightOffSince = null; anyLightOn = false`. -/
def lightScan (lights : List LightSt) : LightAcc :=
  lights.foldl stepLight ⟨none, none, false⟩

/-- The trailing latch update, `src/lib/RoomControl.js` lines 321-345:
first the set block (any light on continuously longer than
`lightTimeout` seconds), then the clear block (no light on,
latest off-transition older than `trailingTime` seconds). -/
def trailingAfter (lights : List LightSt) (trailing : Bool)
    (lightTimeout trailingTime now : Int) : Bool :=
  let acc := lightScan lights
  let afterOn :=
    if acc.anyOn ∧ acc.minOn.isSome ∧ now - acc.minOn.getD 0 > lightTimeout * 1000 then
      true
    else trailing
  if ¬acc.anyOn ∧ afterOn ∧ acc.maxOff.isSome ∧ now - acc.maxOff.getD 0 > trailingTime * 1000 then
    false
  else afterOn

/-- Everything one iteration of the `updateFans` loop reads for one fan,
already resolved from the status cache with its configured fallbacks
(`src/lib/RoomControl.js` lines 247-258). -/
structure FanInput where
  humidity : Option Int
  minHumidityThreshold : Int
  maxHumidityThreshold : Int
  minRunTime : Int
  lightTimeout : Int
  trailingTime : Int
  control : Control
  speed : Speed
  speedSince : Option Int
  lights : List LightSt
  trailing : Bool
  now : Int
deriving DecidableEq, Repr

/-- The minimum-run-time guard condition, `src/lib/RoomControl.js` line 269:
`speed !== 'off' && moment().diff(speedSince, 'millisecond') <
millisecond(minRunTime + 's')`.  A missing `since` on the cached speed
defaults to `new Date()`, i.e. `now` (line 258). -/
abbrev minRunBlocked (inp : FanInput) : Prop :=
  inp.speed ≠ Speed.off ∧ inp.now - inp.speedSince.getD inp.now < inp.minRunTime * 1000

/-- The speed the automatic branch decides on: the trailing latch (after its
update) forces `'min'`, otherwise the humidity contribution stands
(`src/lib/RoomControl.js` lines 277-298 and 347-349). -/
def decideSpeed (inp : FanInput) : Speed :=
  if trailingAfter inp.lights inp.trailing inp.lightTimeout inp.trailingTime inp.now then
    Speed.min
  else
    humiditySpeed inp.humidity inp.minHumidityThreshold inp.maxHumidityThreshold inp.speed

/-- Observable outcome of one fan's evaluation: the retained status publish
(if any), the physical actuator call (if any), the trailing latch afterwards,
and whether the evaluation threw (a rejected `mqttClient.publish` is not
caught inside `updateFans`). -/
structure EvalResult where
  published : Option Speed
  actuated : Option Speed
  trailing : Bool
  errored : Bool
deriving DecidableEq, Repr

/-- One iteration of the `updateFans` loop for one fan,
`src/lib/RoomControl.js` lines 245-356.  `publishOk` models whether the
transport publish succeeds; when it rejects, the `await` throws, so the
actuator call on line 355 is never reached. -/
def evalFan (inp : FanInput) (publishOk : Bool) : EvalResult :=
  if inp.control = Control.manual then
    { published := none, actuated := some inp.speed, trailing := inp.trailing, errored := false }
  else if minRunBlocked inp then
    { published := none, actuated := none, trailing := inp.trailing, errored := false }
  else
    let tr := trailingAfter inp.lights inp.trailing inp.lightTimeout inp.trailingTime inp.now
    let newSpeed := decideSpeed inp
    if inp.speed ≠ newSpeed then
      if publishOk then
        { published := some newSpeed, actuated := some newSpeed, trailing := tr, errored := false }
      else
        { published := none, actuated := none, trailing := tr, errored := true }
    else
      { published := none, actuated := some newSpeed, trailing := tr, errored := false }

/-- The `for(const fan of room.fans || [])` loop of `updateFans`: fans are
evaluated in order; an uncaught throw (failed publish) aborts the whole
`async` method, so the remaining fans are not evaluated on that tick. -/
def runFans : List (FanInput × Bool) → List EvalResult
  | [] => []
  | (inp, publishOk) :: rest =>
    let r := evalFan inp publishOk
    if r.errored then [r] else r :: runFans rest

/-- Feeding one humidity reading per evaluation to a fan in automatic
control with no trigger lights and `minRunTime = 0`: the retained publish
of each changed speed is routed back into the cache, so the next
evaluation's cached speed is the previous commanded speed. -/
def traceInput (minT maxT : Int) (sp : Speed) (h : Int) : FanInput :=
  { humidity := some h
    minHumidityThreshold := minT
    maxHumidityThreshold := maxT
    minRunTime := 0
    lightTimeout := 0
    trailingTime := 0
    control := Control.auto
    speed := sp
    speedSince := some 0
    lights := []
    trailing := false
    now := 0 }

/-- The commanded-speed sequence for a humidity sequence (see `traceInput`). -/
def fanTrace (minT maxT : Int) (sp : Speed) : List Int → List Speed
  | [] => []
  | h :: hs =>
    let r := evalFan (traceInput minT maxT sp h) true
    let nextSp := r.actuated.getD sp
    nextSp :: fanTrace minT maxT nextSp hs

/-- A fan evaluation sitting inside its minimum-run window: speed `min`
was cached at the very moment of the evaluation and `minRunTime` is 60s. -/
def guardedFan : FanInput :=
  { humidity := some 80, minHumidityThreshold := 50, maxHumidityThreshold := 70,
    minRunTime := 60, lightTimeout := 300, trailingTime := 300,
    control := Control.auto, speed := Speed.min, speedSince := some 100000,
    lights := [], trailing := false, now := 100000 }

/-- An automatic evaluation past the guards whose humidity forces a speed
change from `off` to `max`. -/
def risingFan : FanInput :=
  { humidity := some 80, minHumidityThreshold := 50, maxHumidityThreshold := 70,
    minRunTime := 60, lightTimeout := 300, trailingTime := 300,
    control := Control.auto, speed := Speed.off, speedSince := some 0,
    lights := [], trailing := false, now := 100000 }

/-- An automatic evaluation whose only trigger light has been on for longer
than the 300s light timeout, so the trailing latch turns on. -/
def trailFan : FanInput :=
  { humidity := some 40, minHumidityThreshold := 50, maxHumidityThreshold := 70,
    minRunTime := 0, lightTimeout := 300, trailingTime := 300,
    control := Control.auto, speed := Speed.off, speedSince := some 0,
    lights := [⟨some "on", some 0⟩], trailing := false, now := 300001 }

/-- An automatic fan whose cached speed entry carries no `since`
(as produced by the router's merge), with a positive `minRunTime`. -/
def stuckFan : FanInput :=
  { humidity := some 99, minHumidityThreshold := 50, maxHumidityThreshold := 70,
    minRunTime := 60, lightTimeout := 300, trailingTime := 300,
    control := Control.auto, speed := Speed.min, speedSince := none,
    lights := [], trailing := false, now := 123456789 }

/-! ## The MQTT router and status cache, `src/room-control.js` lines 125-164 -/

/-- A primitive payload value (`{value: <primitive>}`): a string such as
`'min'` / `'on'`, or a number. -/
inductive Val
  | str (v : String)
  | num (v : Int)
deriving DecidableEq, Repr

/-- A parsed inbound message object (`data`).  Every payload this repository
publishes is value-shaped; `since` is carried so that its presence or absence
in a stored cache entry can be stated (readers of the cache access
`data.value` and `data.since`). -/
structure Payload where
  value : Val
  since : Option Int
deriving DecidableEq, Repr

/-- The nested `status` object, modelled as a finite map from the full
`_.set` path to the stored payload. -/
def Cache := List (List String × Payload)

instance : DecidableEq Cache := by
  unfold Cache
  infer_instance

/-- `_.get(status, p)`: the stored payload at path `p`, if any. -/
def cacheGet (c : Cache) (p : List String) : Option Payload :=
  (c.find? fun e => e.1 = p).map (·.2)

/-- `_.set(status, p, d)`: store `d` at path `p`, replacing what was there. -/
def cacheSet (c : Cache) (p : List String) (d : Payload) : Cache :=
  (p, d) :: c.filter fun e => ¬e.1 = p

/-- A dispatch the router performs on the device registry:
`roomControls[areaId].shutter(subArea, elementId, data.value)`,
`roomControls[areaId].button('active', elementId, data.value)`, or
`roomControls[areaId].fan(elementId, data)` (which re-evaluates the fans). -/
inductive DriverCall
  | shutterAct (sub : String) (id : Option String) (v : Val)
  | buttonAct (id : Option String) (v : Val)
  | fanAct (roomId : String) (id : Option String)
deriving DecidableEq, Repr

/-- `['up', 'down', 'stop', 'toggle', 'max'].includes(subArea)`;
`includes(undefined)` is `false`. -/
def isShutterCmd : Option String → Bool
  | some s => (["up", "down", "stop", "toggle", "max"] : List String).contains s
  | none => false

/-- Whether `roomControls[areaId]` exists: `areaId` is a configured room id
(`roomControls[undefined]` is `undefined`). -/
def knownRoom (rooms : List String) : Option String → Bool
  | some a => rooms.contains a
  | none => false

/-- `[areaId, element, elementId, subArea].filter(Boolean)`: the segments of
the topic after `room`, dropping missing and empty ones
(`src/room-control.js` lines 138-143). -/
def finalPathOf (topic : List String) : List String :=
  ([topic[1]?, topic[2]?, topic[3]?, topic[4]?].filterMap id).filter fun s => s != ""

/-- The body of the `try` block of `handleMqttMessage`
(`src/room-control.js` lines 127-160).  Splitting the topic yields
`undefined` for missing segments.  For every topic whose first segment is
`room`, the payload is merged into the status cache at the derived path
before any dispatch.  The fan branch `roomControls[areaId][element](...)`
throws a TypeError when `areaId` is not a configured room
(`roomControls[areaId]` is `undefined`); this is the `Except.error` case. -/
def routeStep (rooms : List String) (st : Cache) (topic : List String) (d : Payload) :
    Cache × Except Unit (Option DriverCall) :=
  if topic[0]? = some "room" then
    let areaId := topic[1]?
    let element := topic[2]?
    let elementId := topic[3]?
    let subArea := topic[4]?
    let finalPath := finalPathOf topic
    let st1 := if finalPath = [] then st else cacheSet st finalPath d
    if element = some "shutter" ∧ isShutterCmd subArea then
      (st1, Except.ok (if knownRoom rooms areaId then
        some (DriverCall.shutterAct (subArea.getD "") elementId d.value) else none))
    else if element = some "button" ∧ subArea = some "active" then
      (st1, Except.ok (if knownRoom rooms areaId then
        some (DriverCall.buttonAct elementId d.value) else none))
    else if element = some "fan" then
      if knownRoom rooms areaId then
        (st1, Except.ok (some (DriverCall.fanAct (areaId.getD "") elementId)))
      else
        (st1, Except.error ())
    else
      (st1, Except.ok none)
  else
    (st, Except.ok none)

/-- `handleMqttMessage` (`src/room-control.js` lines 125-164): the whole
body is wrapped in `try { ... } catch(err) { logger.warn(...) }`, so an
internal throw degrades to a logged no-op — the cache keeps whatever the
`try` body already merged, and no dispatch happens. -/
def handleMqttMessage (rooms : List String) (st : Cache) (topic : List String) (d : Payload) :
    Cache × Option DriverCall :=
  match routeStep rooms st topic d with
  | (c, Except.ok call) => (c, call)
  | (c, Except.error _) => (c, none)

/-- Every entry of the cache is since-less (as all merged payloads are
value-shaped, this holds for every reachable cache). -/
def NoSince (c : Cache) : Prop :=
  ∀ p e, cacheGet c p = some e → e.since = none

/-! ## Helper lemmas -/

theorem find?_filter_ne (st : List (List String × Payload)) (p q : List String) (h : ¬p = q) :
    ((st.filter fun e => ¬e.1 = q).find? fun e => e.1 = p) = st.find? fun e => e.1 = p := by
  induction st with
  | nil => rfl
  | cons a st ih =>
    by_cases ha : a.1 = q
    · have haf : ¬a.1 = p := by
        rw [ha]
        exact fun hqp => h hqp.symm
      rw [List.filter_cons_of_neg (by simp [ha]),
        List.find?_cons_of_neg _ (by simp [haf]), ih]
    · rw [List.filter_cons_of_pos (by simp [ha])]
      by_cases hap : a.1 = p
      · rw [List.find?_cons_of_pos _ (by simp [hap]),
          List.find?_cons_of_pos _ (by simp [hap])]
      · rw [List.find?_cons_of_neg _ (by simp [hap]),
          List.find?_cons_of_neg _ (by simp [hap]), ih]

theorem cacheGet_cacheSet (st : Cache) (q p : List String) (d : Payload) :
    cacheGet (cacheSet st q d) p = if p = q then some d else cacheGet st p := by
  by_cases h : p = q
  · subst h
    simp [cacheGet, cacheSet, List.find?]
  · rw [if_neg h]
    simp only [cacheGet, cacheSet]
    rw [List.find?_cons_of_neg _ (by simpa using fun hqp => h hqp.symm),
      find?_filter_ne st p q h]

/-- The `since` timestamps of the trigger lights that are on. -/
def onSinces (lights : List LightSt) : List Int :=
  lights.filterMap fun l => if l.value = some "on" then l.since else none

/-- The `since` timestamps of the trigger lights that are not on. -/
def offSinces (lights : List LightSt) : List Int :=
  lights.filterMap fun l => if l.value = some "on" then none else l.since

/-- Accumulating step for an optional running minimum. -/
def optMin (o : Option Int) (s : Int) : Option Int :=
  some (match o with | some m => Min.min m s | none => s)

/-- Accumulating step for an optional running maximum. -/
def optMax (o : Option Int) (s : Int) : Option Int :=
  some (match o with | some m => Max.max m s | none => s)

theorem lightFold_minOn (lights : List LightSt) (hs : ∀ l ∈ lights, l.since.isSome)
    (acc : LightAcc) :
    (lights.foldl stepLight acc).minOn = (onSinces lights).foldl optMin acc.minOn := by
  induction lights generalizing acc with
  | nil => rfl
  | cons l rest ih =>
    obtain ⟨s, hls⟩ := Option.isSome_iff_exists.mp (hs l (List.mem_cons_self l rest))
    have hrest : ∀ x ∈ rest, x.since.isSome := fun x hx => hs x (List.mem_cons_of_mem _ hx)
    by_cases hv : l.value = some "on"
    · have hcons : onSinces (l :: rest) = s :: onSinces rest := by
        simp [onSinces, List.filterMap_cons, hv, hls]
      rw [List.foldl_cons, hcons, List.foldl_cons, ih hrest]
      congr 1
      simp only [stepLight, if_pos hv]
      cases hacc : acc.minOn with
      | none => simp [hls, optMin]
      | some m =>
        simp only [Option.isNone_some, Bool.false_or, hls, optLt, optMin]
        by_cases hlt : s < m
        · simp [hlt, min_eq_right (le_of_lt hlt)]
        · simp [hlt, min_eq_left (le_of_not_lt hlt)]
    · have hcons : onSinces (l :: rest) = onSinces rest := by
        simp [onSinces, List.filterMap_cons, hv]
      rw [List.foldl_cons, hcons, ih hrest]
      congr 1
      simp [stepLight, hv]

theorem lightFold_maxOff (lights : List LightSt) (hs : ∀ l ∈ lights, l.since.isSome)
    (acc : LightAcc) :
    (lights.foldl stepLight acc).maxOff = (offSinces lights).foldl optMax acc.maxOff := by
  induction lights generalizing acc with
  | nil => rfl
  | cons l rest ih =>
    obtain ⟨s, hls⟩ := Option.isSome_iff_exists.mp (hs l (List.mem_cons_self l rest))
    have hrest : ∀ x ∈ rest, x.since.isSome := fun x hx => hs x (List.mem_cons_of_mem _ hx)
    by_cases hv : l.value = some "on"
    · have hcons : offSinces (l :: rest) = offSinces rest := by
        simp [offSinces, List.filterMap_cons, hv]
      rw [List.foldl_cons, hcons, ih hrest]
      congr 1
      simp [stepLight, hv]
    · have hcons : offSinces (l :: rest) = s :: offSinces rest := by
        simp [offSinces, List.filterMap_cons, hv, hls]
      rw [List.foldl_cons, hcons, List.foldl_cons, ih hrest]
      congr 1
      simp only [stepLight, if_neg hv]
      cases hacc : acc.maxOff with
      | none => simp [hls, optMax]
      | some m =>
        simp only [Option.isNone_some, Bool.false_or, hls, optGt, optMax]
        by_cases hgt : s > m
        · simp [hgt, max_eq_right (le_of_lt hgt)]
        · simp [hgt, max_eq_left (le_of_not_lt hgt)]

theorem lightFold_anyOn (lights : List LightSt) (acc : LightAcc) :
    (lights.foldl stepLight acc).anyOn =
      (acc.anyOn || lights.any fun l => l.value == some "on") := by
  induction lights generalizing acc with
  | nil => simp
  | cons l rest ih =>
    rw [List.foldl_cons, ih]
    by_cases hv : l.value = some "on"
    · simp [stepLight, hv]
    · have hb : (l.value == some "on") = false := by simp [hv]
      simp [stepLight, hv, hb]

theorem foldl_optMin_some (xs : List Int) (m : Int) :
    xs.foldl optMin (some m) = some (xs.foldl Min.min m) := by
  induction xs generalizing m with
  | nil => rfl
  | cons x xs ih =>
    rw [List.foldl_cons, List.foldl_cons]
    exact ih (Min.min m x)

theorem foldl_optMin_none (xs : List Int) : xs.foldl optMin none = xs.min? := by
  cases xs with
  | nil => rfl
  | cons x xs =>
    rw [List.foldl_cons]
    show xs.foldl optMin (some x) = _
    rw [foldl_optMin_some]
    rfl

theorem foldl_optMax_some (xs : List Int) (m : Int) :
    xs.foldl optMax (some m) = some (xs.foldl Max.max m) := by
  induction xs generalizing m with
  | nil => rfl
  | cons x xs ih =>
    rw [List.foldl_cons, List.foldl_cons]
    exact ih (Max.max m x)

theorem foldl_optMax_none (xs : List Int) : xs.foldl optMax none = xs.max? := by
  cases xs with
  | nil => rfl
  | cons x xs =>
    rw [List.foldl_cons]
    show xs.foldl optMax (some x) = _
    rw [foldl_optMax_some]
    rfl

theorem lightScan_minOn (lights : List LightSt) (hs : ∀ l ∈ lights, l.since.isSome) :
    (lightScan lights).minOn = (onSinces lights).min? := by
  rw [lightScan, lightFold_minOn lights hs]
  exact foldl_optMin_none _

theorem lightScan_maxOff (lights : List LightSt) (hs : ∀ l ∈ lights, l.since.isSome) :
    (lightScan lights).maxOff = (offSinces lights).max? := by
  rw [lightScan, lightFold_maxOff lights hs]
  exact foldl_optMax_none _

theorem lightScan_anyOn (lights : List LightSt) :
    (lightScan lights).anyOn = true ↔ ∃ l ∈ lights, l.value = some "on" := by
  rw [lightScan, lightFold_anyOn]
  simp [List.any_eq_true]

theorem mem_of_onSinces_min? (lights : List LightSt) (s : Int)
    (h : (onSinces lights).min? = some s) : ∃ l ∈ lights, l.value = some "on" := by
  have hmem : s ∈ onSinces lights := List.min?_mem (fun a b => min_choice a b) h
  rw [onSinces, List.mem_filterMap] at hmem
  obtain ⟨l, hl, hf⟩ := hmem
  refine ⟨l, hl, ?_⟩
  by_contra hv
  rw [if_neg hv] at hf
  exact Option.noConfusion hf

theorem trailingAfter_false_iff (lights : List LightSt) (lightTimeout trailingTime now : Int)
    (hs : ∀ l ∈ lights, l.since.isSome) :
    trailingAfter lights false lightTimeout trailingTime now = true ↔
      ∃ s, (onSinces lights).min? = some s ∧ now - s > lightTimeout * 1000 := by
  have hmin := lightScan_minOn lights hs
  unfold trailingAfter
  dsimp only
  cases hq : (onSinces lights).min? with
  | none =>
    rw [hmin, hq]
    simp
  | some s =>
    have hany : (lightScan lights).anyOn = true :=
      (lightScan_anyOn lights).mpr (mem_of_onSinces_min? lights s hq)
    rw [hmin, hq, hany]
    by_cases hp : now - s > lightTimeout * 1000
    · simp [hp]
    · simp [hp]

theorem trailingAfter_true_iff (lights : List LightSt) (lightTimeout trailingTime now : Int)
    (hs : ∀ l ∈ lights, l.since.isSome) :
    trailingAfter lights true lightTimeout trailingTime now = false ↔
      (¬∃ l ∈ lights, l.value = some "on") ∧
        ∃ s, (offSinces lights).max? = some s ∧ now - s > trailingTime * 1000 := by
  have hmax := lightScan_maxOff lights hs
  have hany := lightScan_anyOn lights
  unfold trailingAfter
  dsimp only
  rw [ite_self]
  simp only [← hany]
  cases hq : (offSinces lights).max? with
  | none =>
    rw [hmax, hq]
    simp
  | some s =>
    rw [hmax, hq]
    by_cases hb : (lightScan lights).anyOn = true <;>
      by_cases hp : now - s > trailingTime * 1000 <;>
        simp [hb, hp]

/-! ## Claim theorems -/

/-- C1 (counterexample): the claim quantifies over every evaluation with a
humidity reading present, but the source tests `if(humidity)`, so a present
reading of `0` is falsy and skips the band logic.  With current speed
`'max'` and `maxHumidityThreshold = 5`, the claim's formula gives `'max'`
(`0 > 5 - 10`), while the code gives `'off'`. -/
theorem C1_zero_humidity_counterexample :
    humiditySpeed (some 0) 20 5 Speed.max = Speed.off ∧
    specHumiditySpeed 0 20 5 Speed.max = Speed.max := by decide

/-- C1 (amended): for every automatic evaluation past the guards with a
truthy (nonzero) humidity reading, the humidity-derived speed follows the
spec's band formula exactly (strict comparisons, max band first, first match
wins); a missing reading contributes `'off'` (and so does a zero reading,
which JS treats as absent). -/
theorem C1_humidity_bands (v minT maxT : Int) (sp : Speed) (hv : v ≠ 0) :
    humiditySpeed (some v) minT maxT sp = specHumiditySpeed v minT maxT sp ∧
    humiditySpeed none minT maxT sp = Speed.off := by
  constructor
  · simp only [humiditySpeed, specHumiditySpeed, if_neg hv]
  · rfl

theorem C1_humidity_bands_witness :
    humiditySpeed (some 55) 50 70 Speed.off = specHumiditySpeed 55 50 70 Speed.off ∧
    humiditySpeed none 50 70 Speed.off = Speed.off :=
  C1_humidity_bands 55 50 70 Speed.off (by decide)

/-- C2 (counterexample): the claimed commanded-speed sequence ends in
`'min'`, but after the `'max'` excursion the final 45% reading fails the
max-retention band (`45 > 60` is false), fails the min band (`45 > 50` is
false), and the min-retention band requires current speed `'min'` (it is
`'max'`), so the final speed is `'off'`. -/
theorem C2_trace_counterexample :
    fanTrace 50 70 Speed.off [40, 55, 75, 65, 45] ≠
      [Speed.off, Speed.min, Speed.max, Speed.max, Speed.min] := by decide

/-- C2 (amended): with `minHumidityThreshold = 50`,
`maxHumidityThreshold = 70`, `minRunTime = 0`, no trigger lights and
trailing false, the humidity sequence 40, 55, 75, 65, 45 yields the
commanded speeds off, min, max, max, off (as the spec sentence itself
derives for the final reading). -/
theorem C2_trace :
    fanTrace 50 70 Speed.off [40, 55, 75, 65, 45] =
      [Speed.off, Speed.min, Speed.max, Speed.max, Speed.off] := by decide

/-- C3 (confirmed): in automatic control, while the cached speed is not
`'off'` and less than `minRunTime` seconds have elapsed since `speedSince`,
the evaluation is a no-op: nothing is published (so the cached speed stays),
no actuator call is made, and the trailing latch is untouched — whatever the
humidity and light inputs are. -/
theorem C3_min_run_time_guard (inp : FanInput) (publishOk : Bool) (t : Int)
    (hc : inp.control = Control.auto)
    (hs : inp.speed ≠ Speed.off)
    (hsi : inp.speedSince = some t)
    (hrt : inp.now - t < inp.minRunTime * 1000) :
    evalFan inp publishOk =
      { published := none, actuated := none, trailing := inp.trailing, errored := false } := by
  unfold evalFan
  rw [if_neg (by rw [hc]; exact fun h => Control.noConfusion h),
    if_pos ⟨hs, by rw [hsi]; exact hrt⟩]

theorem C3_min_run_time_guard_witness :
    evalFan
      { humidity := some 99, minHumidityThreshold := 50, maxHumidityThreshold := 70,
        minRunTime := 60, lightTimeout := 300, trailingTime := 300,
        control := Control.auto, speed := Speed.min, speedSince := some 90000,
        lights := [], trailing := false, now := 100000 } true =
      { published := none, actuated := none, trailing := false, errored := false } :=
  C3_min_run_time_guard _ true 90000 rfl (by decide) rfl (by decide)

/-- C5 (confirmed): a fan whose cached control is `'manual'` is driven to
the cached speed verbatim and nothing else happens on that evaluation: no
publish, no trailing-latch update, no error — independent of the humidity,
the timers and the lights. -/
theorem C5_manual_override (inp : FanInput) (publishOk : Bool)
    (hc : inp.control = Control.manual) :
    evalFan inp publishOk =
      { published := none, actuated := some inp.speed, trailing := inp.trailing,
        errored := false } := by
  unfold evalFan
  rw [if_pos hc]

/-- C6 (counterexample): the claim says the physical actuator command is
re-issued on every evaluation; but an evaluation stopped by the
minimum-run-time guard executes `continue` and issues no actuator call at
all. -/
theorem C6_guard_skips_actuator_counterexample :
    (evalFan guardedFan true).actuated = none := by decide

/-- C6 (amended): a fan-speed status update is published iff the computed
speed differs from the cached one, and the actuator command for the
computed speed is re-issued whenever the evaluation passes the manual and
minimum-run-time guards (a manual evaluation re-issues the cached speed);
an evaluation stopped by the minimum-run-time guard issues neither a
publish nor an actuator command. -/
theorem C6_publish_iff_speed_change (inp : FanInput) :
    (inp.control = Control.auto → ¬minRunBlocked inp →
      (evalFan inp true).published =
        (if decideSpeed inp = inp.speed then none else some (decideSpeed inp)) ∧
      (evalFan inp true).actuated = some (decideSpeed inp))
  ∧ (inp.control = Control.auto → minRunBlocked inp →
      evalFan inp true =
        { published := none, actuated := none, trailing := inp.trailing, errored := false })
  ∧ (inp.control = Control.manual →
      evalFan inp true =
        { published := none, actuated := some inp.speed, trailing := inp.trailing,
          errored := false }) := by
  refine ⟨fun hc hg => ?_, fun hc hg => ?_, fun hc => ?_⟩
  · unfold evalFan
    rw [if_neg (by rw [hc]; exact fun h => Control.noConfusion h), if_neg hg]
    dsimp only
    by_cases hsp : inp.speed = decideSpeed inp
    · rw [if_neg (fun h => h hsp), if_pos hsp.symm]
      exact ⟨rfl, rfl⟩
    · rw [show (if decideSpeed inp = inp.speed then (none : Option Speed)
          else some (decideSpeed inp)) = some (decideSpeed inp)
          from if_neg (fun h => hsp h.symm), if_pos hsp]
      exact ⟨rfl, rfl⟩
  · unfold evalFan
    rw [if_neg (by rw [hc]; exact fun h => Control.noConfusion h), if_pos hg]
  · unfold evalFan
    rw [if_pos hc]

theorem C6_publish_iff_speed_change_witness :
    ((evalFan risingFan true).published =
        (if decideSpeed risingFan = risingFan.speed then none
          else some (decideSpeed risingFan)) ∧
      (evalFan risingFan true).actuated = some (decideSpeed risingFan)) ∧
    evalFan guardedFan true =
      { published := none, actuated := none, trailing := false, errored := false } :=
  ⟨(C6_publish_iff_speed_change risingFan).1 rfl (by decide),
    (C6_publish_iff_speed_change guardedFan).2.1 rfl (by decide)⟩

/-- C9 (counterexample): the claim says a failed transport publish does not
prevent the local actuator call; but `updateFans` does not catch the
rejected `await mqttClient.publish(...)`, so the actuator call on the next
line is never reached, and the loop over the remaining fans is aborted: the
second fan of the tick produces no result at all. -/
theorem C9_publish_failure_counterexample :
    (evalFan risingFan false).actuated = none ∧
    runFans [(risingFan, false), (guardedFan, true)] =
      [{ published := none, actuated := none, trailing := false, errored := true }] := by
  decide

/-- C9 (amended): when the transport publish of a changed speed rejects,
the error propagates out of `updateFans`: the fan's actuator call is
skipped (no publish happened either, so the cached speed is unchanged) and
the remaining fans of that tick are not evaluated.  No caller awaits
`updateFans` (neither the interval tick nor `fan()`), so the rejection
surfaces as an unhandled promise rejection. -/
theorem C9_publish_failure_aborts (inp : FanInput) (rest : List (FanInput × Bool))
    (hc : inp.control = Control.auto) (hg : ¬minRunBlocked inp)
    (hch : inp.speed ≠ decideSpeed inp) :
    evalFan inp false =
      { published := none, actuated := none,
        trailing := trailingAfter inp.lights inp.trailing inp.lightTimeout inp.trailingTime
          inp.now,
        errored := true } ∧
    runFans ((inp, false) :: rest) = [evalFan inp false] := by
  have h1 : evalFan inp false =
      { published := none, actuated := none,
        trailing := trailingAfter inp.lights inp.trailing inp.lightTimeout inp.trailingTime
          inp.now,
        errored := true } := by
    unfold evalFan
    rw [if_neg (by rw [hc]; exact fun h => Control.noConfusion h), if_neg hg, if_pos hch]
    rfl
  refine ⟨h1, ?_⟩
  show (if (evalFan inp false).errored then [evalFan inp false]
    else evalFan inp false :: runFans rest) = [evalFan inp false]
  rw [h1]
  rfl

theorem C9_publish_failure_aborts_witness :
    evalFan risingFan false =
      { published := none, actuated := none,
        trailing := trailingAfter risingFan.lights risingFan.trailing risingFan.lightTimeout
          risingFan.trailingTime risingFan.now,
        errored := true } ∧
    runFans [(risingFan, false), (guardedFan, true)] = [evalFan risingFan false] :=
  C9_publish_failure_aborts risingFan [(guardedFan, true)] rfl (by decide) (by decide)

theorem C5_manual_override_witness :
    evalFan
      { humidity := some 99, minHumidityThreshold := 50, maxHumidityThreshold := 70,
        minRunTime := 60, lightTimeout := 300, trailingTime := 300,
        control := Control.manual, speed := Speed.max, speedSince := some 0,
        lights := [⟨some "on", some 0⟩], trailing := true, now := 100000000 } false =
      { published := none, actuated := some Speed.max, trailing := true, errored := false } :=
  C5_manual_override _ false rfl

/-- C4 (confirmed): over trigger lights whose cache entries carry a `since`
timestamp, (1) from a cleared latch, the evaluation sets `trailing` exactly
when some trigger light is on and the on-duration measured from the
earliest on-`since` strictly exceeds `lightTimeout` seconds; (2) from a set
latch, it clears `trailing` exactly when no trigger light is on and the
latest off-`since` is strictly older than `trailingTime` seconds; and
(3) on every automatic evaluation that passes the guards with the latch set
afterwards, the decided speed is `'min'` and the commanded (actuated) speed
is `'min'`, never `'off'`. -/
theorem C4_trailing_latch :
    (∀ (lights : List LightSt) (lightTimeout trailingTime now : Int),
      (∀ l ∈ lights, l.since.isSome) →
      (trailingAfter lights false lightTimeout trailingTime now = true ↔
        ∃ s, (onSinces lights).min? = some s ∧ now - s > lightTimeout * 1000))
  ∧ (∀ (lights : List LightSt) (lightTimeout trailingTime now : Int),
      (∀ l ∈ lights, l.since.isSome) →
      (trailingAfter lights true lightTimeout trailingTime now = false ↔
        (¬∃ l ∈ lights, l.value = some "on") ∧
          ∃ s, (offSinces lights).max? = some s ∧ now - s > trailingTime * 1000))
  ∧ (∀ inp : FanInput,
      inp.control = Control.auto → ¬minRunBlocked inp →
      trailingAfter inp.lights inp.trailing inp.lightTimeout inp.trailingTime inp.now = true →
      decideSpeed inp = Speed.min ∧ (evalFan inp true).actuated = some Speed.min) := by
  refine ⟨trailingAfter_false_iff, trailingAfter_true_iff, fun inp hc hg htr => ?_⟩
  have hd : decideSpeed inp = Speed.min := by
    unfold decideSpeed
    rw [if_pos htr]
  refine ⟨hd, ?_⟩
  unfold evalFan
  rw [if_neg (by rw [hc]; exact fun h => Control.noConfusion h), if_neg hg]
  dsimp only
  by_cases hsp : inp.speed = decideSpeed inp
  · rw [if_neg (fun h => h hsp)]
    show some (decideSpeed inp) = some Speed.min
    rw [hd]
  · rw [if_pos hsp]
    show some (decideSpeed inp) = some Speed.min
    rw [hd]

theorem handle_fst_eq_routeStep_fst (rooms : List String) (st : Cache) (topic : List String)
    (d : Payload) :
    (handleMqttMessage rooms st topic d).1 = (routeStep rooms st topic d).1 := by
  rcases h : routeStep rooms st topic d with ⟨c, r⟩
  unfold handleMqttMessage
  rw [h]
  cases r <;> rfl

theorem routeStep_cache (rooms : List String) (st : Cache) (topic : List String) (d : Payload) :
    (routeStep rooms st topic d).1 = st ∨
      (routeStep rooms st topic d).1 = cacheSet st (finalPathOf topic) d := by
  unfold routeStep
  dsimp only
  split_ifs <;> simp_all

theorem noSince_preserved (rooms : List String) (st : Cache) (topic : List String) (d : Payload)
    (hst : NoSince st) (hd : d.since = none) :
    NoSince (handleMqttMessage rooms st topic d).1 := by
  rw [handle_fst_eq_routeStep_fst]
  rcases routeStep_cache rooms st topic d with h | h <;> rw [h]
  · exact hst
  · intro p e hpe
    rw [cacheGet_cacheSet] at hpe
    by_cases hpq : p = finalPathOf topic
    · rw [if_pos hpq] at hpe
      injection hpe with he
      rw [← he]
      exact hd
    · rw [if_neg hpq] at hpe
      exact hst p e hpe

/-- C7 (counterexample): the claim says a malformed or unrecognized topic
leaves the status cache unmutated; but any topic whose first segment is
`room` is merged into the cache at the derived path before dispatch, even
when the device kind is unrecognized. -/
theorem C7_unknown_element_mutates_cache :
    (handleMqttMessage [] [] ["room", "r1", "frobnicator", "x", "status"]
        ⟨Val.num 1, none⟩).1 ≠ ([] : Cache) := by decide

/-- C7 (amended): a topic whose first segment is not `room` is a complete
no-op (no cache mutation, no driver call); a topic under `room` with an
unrecognized device kind always merges the payload into the cache at the
derived path but invokes no driver action; and every internal dispatch
failure is caught at the boundary — the handler returns the merged cache
and no call instead of raising. -/
theorem C7_routing_boundary (rooms : List String) (st : Cache) (topic : List String)
    (d : Payload) :
    (topic[0]? ≠ some "room" → handleMqttMessage rooms st topic d = (st, none))
  ∧ (topic[0]? = some "room" → topic[2]? ≠ some "shutter" → topic[2]? ≠ some "button" →
      topic[2]? ≠ some "fan" →
      handleMqttMessage rooms st topic d =
        ((if finalPathOf topic = [] then st else cacheSet st (finalPathOf topic) d), none))
  ∧ (∀ c : Cache, routeStep rooms st topic d = (c, Except.error ()) →
      handleMqttMessage rooms st topic d = (c, none)) := by
  refine ⟨fun h0 => ?_, fun h0 h2s h2b h2f => ?_, fun c herr => ?_⟩
  · unfold handleMqttMessage routeStep
    rw [if_neg h0]
  · unfold handleMqttMessage routeStep
    rw [if_pos h0]
    dsimp only
    rw [if_neg (fun hand => h2s hand.1), if_neg (fun hand => h2b hand.1), if_neg h2f]
  · unfold handleMqttMessage
    rw [herr]

theorem C7_routing_boundary_witness :
    handleMqttMessage [] [] ["foo", "x"] ⟨Val.num 1, none⟩ = ([], none) ∧
    handleMqttMessage [] [] ["room", "wc", "window", "w1", "status"] ⟨Val.str "open", none⟩ =
      ((if finalPathOf ["room", "wc", "window", "w1", "status"] = [] then []
        else cacheSet [] (finalPathOf ["room", "wc", "window", "w1", "status"])
          ⟨Val.str "open", none⟩), none) ∧
    handleMqttMessage [] [] ["room", "x", "fan", "f1", "speed"] ⟨Val.str "min", none⟩ =
      (cacheSet [] (finalPathOf ["room", "x", "fan", "f1", "speed"]) ⟨Val.str "min", none⟩,
        none) :=
  ⟨(C7_routing_boundary [] [] ["foo", "x"] ⟨Val.num 1, none⟩).1 (by decide),
    (C7_routing_boundary [] [] ["room", "wc", "window", "w1", "status"]
      ⟨Val.str "open", none⟩).2.1 rfl (by decide) (by decide) (by decide),
    (C7_routing_boundary [] [] ["room", "x", "fan", "f1", "speed"]
      ⟨Val.str "min", none⟩).2.2 _ rfl⟩

/-- C8 (code_bug): the spec's cache contract says a merge of a changed
value stamps `since` with the current time, and `updateFans` indeed reads
`since` back (`src/lib/RoomControl.js` lines 258 and 306) — but the
router's merge `_.set(status, finalPath, data)` stores the value-shaped
payload verbatim and writes no `since` field at all.  Evaluating the code
at the failing input: after merging a fan speed, the stored entry has no
`since`. -/
theorem C8_merge_stores_no_since :
    cacheGet (handleMqttMessage ["bad"] [] ["room", "bad", "fan", "lueftung", "speed"]
        ⟨Val.str "min", none⟩).1 ["bad", "fan", "lueftung", "speed"] =
      some ⟨Val.str "min", none⟩ := by decide

/-- C10 (confirmed): the router's merge stores the value-shaped payload
verbatim and never writes a `since` field (since-lessness of the cache is
preserved by every handled message); and when the cached fan speed entry
has no `since`, `speedSince` defaults to the evaluation's own `new Date()`,
so the elapsed time is zero and, for an automatic fan with non-off speed
and `minRunTime > 0`, the minimum-run-time guard fires on every
evaluation: nothing is published and nothing is actuated, so the automatic
engine never changes that fan's speed. -/
theorem C10_missing_since_freezes_auto_fan :
    (∀ (rooms : List String) (st : Cache) (topic : List String) (d : Payload),
      NoSince st → d.since = none → NoSince (handleMqttMessage rooms st topic d).1)
  ∧ (∀ (inp : FanInput) (publishOk : Bool),
      inp.control = Control.auto → inp.speed ≠ Speed.off → inp.speedSince = none →
      0 < inp.minRunTime →
      evalFan inp publishOk =
        { published := none, actuated := none, trailing := inp.trailing,
          errored := false }) := by
  refine ⟨noSince_preserved, fun inp publishOk hc hs hsi hmr => ?_⟩
  unfold evalFan
  rw [if_neg (by rw [hc]; exact fun h => Control.noConfusion h),
    if_pos ⟨hs, by rw [hsi]; simpa using mul_pos hmr (by norm_num : (0:Int) < 1000)⟩]

theorem C10_missing_since_freezes_auto_fan_witness :
    NoSince (handleMqttMessage [] [] ["room", "wc", "fan", "lueftung", "speed"]
        ⟨Val.str "min", none⟩).1 ∧
    evalFan stuckFan true =
      { published := none, actuated := none, trailing := false, errored := false } :=
  ⟨C10_missing_since_freezes_auto_fan.1 [] [] ["room", "wc", "fan", "lueftung", "speed"]
      ⟨Val.str "min", none⟩ (fun p e h => Option.noConfusion h) rfl,
    C10_missing_since_freezes_auto_fan.2 stuckFan true rfl (by decide) rfl (by decide)⟩

theorem C4_trailing_latch_witness :
    (trailingAfter [⟨some "on", some 1000⟩] false 300 300 302001 = true ↔
      ∃ s, (onSinces [⟨some "on", some 1000⟩]).min? = some s ∧ 302001 - s > 300 * 1000) ∧
    (trailingAfter [⟨some "off", some 1000⟩] true 300 300 400000 = false ↔
      (¬∃ l ∈ [(⟨some "off", some 1000⟩ : LightSt)], l.value = some "on") ∧
        ∃ s, (offSinces [⟨some "off", some 1000⟩]).max? = some s ∧ 400000 - s > 300 * 1000) ∧
    (decideSpeed trailFan = Speed.min ∧ (evalFan trailFan true).actuated = some Speed.min) :=
  ⟨C4_trailing_latch.1 [⟨some "on", some 1000⟩] 300 300 302001 (by decide),
    C4_trailing_latch.2.1 [⟨some "off", some 1000⟩] 300 300 400000 (by decide),
    C4_trailing_latch.2.2 trailFan rfl (by decide) (by decide)⟩

end RC
